import Mathlib

/-!
Verification development for the CareerNinja LearnTube backend
(`backend/agents.py`, `backend/memory.py`, `backend/scraper.py`).

The Python code is shallowly embedded: pure helpers become Lean functions,
stateful Chroma-backed memory becomes explicit state passing over a `Store`
value, and every external service call (Apify scrape, OpenAI embeddings,
Chroma collection operations, Groq completions) is modelled by an explicit
outcome parameter (`Except`/`Bool`) that says how the external call went,
mirroring the `try`/`except` structure of the source.  Python exceptions
become `Except.error`; a caught exception is a handled `.error` branch.
-/

namespace LearnTube

/-- The opening curly brace character (written via its code point). -/
def lbraceC : Char := '\x7b'

/-- The closing curly brace character (written via its code point). -/
def rbraceC : Char := '\x7d'

/-- Parsed JSON values, as produced by Python `json.loads`.  Numbers are
modelled as rationals (Python parses them to `int`/`float`). -/
inductive Json where
  | null : Json
  | bool (b : Bool) : Json
  | num (q : Rat) : Json
  | str (s : String) : Json
  | arr (elems : List Json) : Json
  | obj (fields : List (String × Json)) : Json
deriving Repr

/-- Skip JSON whitespace, as `json.loads` does between tokens. -/
def skipWs : List Char → List Char
  | [] => []
  | c :: cs =>
    if c = ' ' ∨ c = '\t' ∨ c = '\n' ∨ c = '\r' then skipWs cs else c :: cs

/-- Decode one escape character after a backslash inside a JSON string
(`\u` escapes are not modelled; on them the model parser fails). -/
def escChar (c : Char) : Option Char :=
  if c = '"' then some '"'
  else if c = '\\' then some '\\'
  else if c = '/' then some '/'
  else if c = 'n' then some '\n'
  else if c = 't' then some '\t'
  else if c = 'r' then some '\r'
  else if c = 'b' then some (Char.ofNat 8)
  else if c = 'f' then some (Char.ofNat 12)
  else none

/-- Parse the body of a JSON string after the opening quote; returns the
decoded characters and the remainder after the closing quote. -/
def parseStringBody : List Char → Option (List Char × List Char)
  | [] => none
  | c :: rest =>
    if c = '"' then some ([], rest)
    else if c = '\\' then
      match rest with
      | [] => none
      | e :: rest2 =>
        match escChar e with
        | some d => (parseStringBody rest2).map (fun p => (d :: p.1, p.2))
        | none => none
    else (parseStringBody rest).map (fun p => (c :: p.1, p.2))

/-- Take the maximal run of leading decimal digits. -/
def takeDigits : List Char → (List Char × List Char)
  | [] => ([], [])
  | c :: cs =>
    if c.isDigit then
      let p := takeDigits cs
      (c :: p.1, p.2)
    else ([], c :: cs)

/-- Numeric value of a digit run. -/
def digitsVal (ds : List Char) : Nat :=
  ds.foldl (fun a c => a * 10 + (c.toNat - 48)) 0

/-- Parse a JSON number (optional minus, integer part, optional fraction;
exponent notation is not modelled). -/
def parseNumber (cs : List Char) : Option (Rat × List Char) :=
  let sn : Bool × List Char :=
    match cs with
    | c :: r => if c = '-' then (true, r) else (false, cs)
    | [] => (false, [])
  match takeDigits sn.2 with
  | ([], _) => none
  | (ds, rest) =>
    match rest with
    | '.' :: rest2 =>
      match takeDigits rest2 with
      | ([], _) => none
      | (fs, rest3) =>
        let mant : Nat := digitsVal ds * 10 ^ fs.length + digitsVal fs
        let i : Int := if sn.1 then -(mant : Int) else (mant : Int)
        some (mkRat i (10 ^ fs.length), rest3)
    | _ =>
      let i : Int := if sn.1 then -(digitsVal ds : Int) else (digitsVal ds : Int)
      some ((i : Rat), rest)

/-- Does the list start with the given prefix of characters? -/
def startsWithChars : List Char → List Char → Bool
  | _, [] => true
  | [], _ :: _ => false
  | c :: cs, d :: ds => c = d && startsWithChars cs ds

mutual

/-- Fuel-bounded recursive-descent parser for one JSON value, modelling
Python `json.loads`.  Returns the value and the unconsumed remainder. -/
def parseJsonVal : Nat → List Char → Option (Json × List Char)
  | 0, _ => none
  | fuel + 1, cs =>
    match skipWs cs with
    | [] => none
    | c :: rest =>
      if c = '"' then
        (parseStringBody rest).map (fun p => (Json.str (String.mk p.1), p.2))
      else if c = lbraceC then
        (parseObjFields fuel true (skipWs rest)).map
          (fun p => (Json.obj p.1, p.2))
      else if c = '[' then
        (parseArrElems fuel true (skipWs rest)).map
          (fun p => (Json.arr p.1, p.2))
      else if startsWithChars (c :: rest) ['n', 'u', 'l', 'l'] then
        some (Json.null, (c :: rest).drop 4)
      else if startsWithChars (c :: rest) ['t', 'r', 'u', 'e'] then
        some (Json.bool true, (c :: rest).drop 4)
      else if startsWithChars (c :: rest) ['f', 'a', 'l', 's', 'e'] then
        some (Json.bool false, (c :: rest).drop 5)
      else
        (parseNumber (c :: rest)).map (fun p => (Json.num p.1, p.2))

/-- Parse the members of a JSON object after the opening brace (whitespace
already skipped); `allowEnd` is false right after a comma, so a trailing
comma is rejected, as Python does. -/
def parseObjFields : Nat → Bool → List Char →
    Option (List (String × Json) × List Char)
  | 0, _, _ => none
  | fuel + 1, allowEnd, cs =>
    match skipWs cs with
    | [] => none
    | c :: rest =>
      if c = rbraceC then
        if allowEnd then some ([], rest) else none
      else if c = '"' then
        match parseStringBody rest with
        | none => none
        | some (k, r1) =>
          match skipWs r1 with
          | ':' :: r2 =>
            match parseJsonVal fuel r2 with
            | none => none
            | some (v, r3) =>
              match skipWs r3 with
              | ',' :: r4 =>
                (parseObjFields fuel false r4).map
                  (fun p => ((String.mk k, v) :: p.1, p.2))
              | d :: r4 =>
                if d = rbraceC then some ([(String.mk k, v)], r4) else none
              | [] => none
          | _ => none
      else none

/-- Parse the elements of a JSON array after the opening bracket. -/
def parseArrElems : Nat → Bool → List Char → Option (List Json × List Char)
  | 0, _, _ => none
  | fuel + 1, allowEnd, cs =>
    match skipWs cs with
    | [] => none
    | c :: rest =>
      if c = ']' then
        if allowEnd then some ([], rest) else none
      else
        match parseJsonVal fuel (c :: rest) with
        | none => none
        | some (v, r1) =>
          match skipWs r1 with
          | ',' :: r2 =>
            (parseArrElems fuel false r2).map (fun p => (v :: p.1, p.2))
          | ']' :: r2 => some ([v], r2)
          | _ => none

end

/-- Model of Python `json.loads`: parse one value and require that only
whitespace remains, else fail. -/
def json_loads (cs : List Char) : Option Json :=
  match parseJsonVal (cs.length + 1) cs with
  | some (v, rest) => if skipWs rest = [] then some v else none
  | none => none

/-- Index of the first character satisfying `p`, as Python `str.index`
(`none` models the `ValueError` Python raises when absent). -/
def firstIdxP (p : Char → Bool) : List Char → Option Nat
  | [] => none
  | c :: cs => if p c then some 0 else (firstIdxP p cs).map (· + 1)

/-- Index of the last character satisfying `p`, as Python `str.rindex`. -/
def lastIdxP (p : Char → Bool) (l : List Char) : Option Nat :=
  (firstIdxP p l.reverse).map (fun i => l.length - 1 - i)

/-- Python slice `text[s:e]`. -/
def pySlice (l : List Char) (s e : Nat) : List Char :=
  (l.drop s).take (e - s)

/-- The fallback value `_extract_structured_from_model` returns when no JSON
object can be located or parsed in the model output. -/
def defaultExtract : Json :=
  Json.obj
    [("match_score", Json.null),
     ("recommendations", Json.arr []),
     ("rewritten_sections", Json.obj [])]

/-- `backend/agents.py` `_extract_structured_from_model`: locate the first
opening brace and the last closing brace, `json.loads` the enclosed
substring, and fall back to `defaultExtract` on any failure (Python catches
every exception from `index`, `rindex` and `json.loads`). -/
def _extract_structured_from_model (text : List Char) : Json :=
  match firstIdxP (fun c => c = lbraceC) text,
        lastIdxP (fun c => c = rbraceC) text with
  | some s, some e =>
    match json_loads (pySlice text s (e + 1)) with
    | some parsed => parsed
    | none => defaultExtract
  | some _, none => defaultExtract
  | none, _ => defaultExtract

/-- Python truthiness of a parsed JSON value (`None`, `False`, `0`, `""`,
`[]` and the empty dict are falsy). -/
def jsonFalsy : Json → Bool
  | Json.null => true
  | Json.bool b => !b
  | Json.num q => q = 0
  | Json.str s => s = ""
  | Json.arr l => l.isEmpty
  | Json.obj l => l.isEmpty

/-- Python `dict.get(k)` on a parsed JSON object: the value of the last
binding of `k` (Python keeps the last duplicate key), or `None` when the
key is absent. -/
def dictGet (j : Json) (k : String) : Json :=
  match j with
  | Json.obj fields =>
    match (fields.reverse).lookup k with
    | some v => v
    | none => Json.null
  | _ => Json.null

/-- The `match_score` normalization of `backend/agents.py` lines 168-177:
`isinstance(match_score, (int, float))` converts to `float` and clamps to
[0,100], anything else becomes `None`.  A Python `bool` is an instance of
`int` (`float(True) = 1.0`), so parsed JSON `true`/`false` pass the
`isinstance` test and are clamped as numbers. -/
def normalize_match_score (v : Json) : Option Rat :=
  match v with
  | Json.num q => some (if q < 0 then 0 else if q > 100 then 100 else q)
  | Json.bool b => some (if b then 1 else 0)
  | _ => none

/-- Python `str.strip()`: drop whitespace from both ends (kept executable
by working on the character list). -/
def pyStrip (s : String) : String :=
  String.mk
    (((s.toList.dropWhile Char.isWhitespace).reverse.dropWhile
      Char.isWhitespace).reverse)

/-- The fixed generic job description emitted when no job title is given. -/
def genericJobDescription : String :=
  "A generic professional role; focus on transferable skills: communication, problem-solving, teamwork, and role-relevant competencies."

/-- The single-quote character, used around the role title in the
job-description template. -/
def sq : String := "'"

/-- `backend/agents.py` `_synthesize_job_description`: a falsy title
(`None` or the empty string) yields the generic template; otherwise the
title is stripped and spliced into the fixed template. -/
def _synthesize_job_description (job_title : Option String) : String :=
  match job_title with
  | none => genericJobDescription
  | some t =>
    if t = "" then genericJobDescription
    else
      let title := pyStrip t
      "Canonical responsibilities and skills for the role " ++ sq ++ title ++ sq ++ ":\n" ++
      "- Core responsibilities: deliver outcomes relevant to the role, collaborate cross-functionally, and manage stakeholder communication.\n" ++
      "- Common skills: relevant technical skills for the title, domain knowledge, problem-solving, communication, and measurable achievements.\n" ++
      "- Typical deliverables: project outcomes, metrics/KPIs, and domain-specific examples (e.g., product launches, model accuracy improvements, revenue impact).\n"

/-- Does `sub` occur as a contiguous run inside `l`?  Models the Python
`in` operator on strings. -/
def containsSeg : List Char → List Char → Bool
  | l, sub =>
    if startsWithChars l sub then true
    else
      match l with
      | [] => false
      | _ :: cs => containsSeg cs sub

/-- String-level containment, Python `sub in s`. -/
def strContains (s sub : String) : Bool :=
  containsSeg s.toList sub.toList

/-! ## Memory store (`backend/memory.py`)

The Chroma store becomes an explicit `Store` value (collection name →
records, in insertion order).  The two global clients (`_client` for
Chroma, `_openai_client` for embeddings) become the booleans of `MemEnv`.
Each external call inside one Python function gets an outcome field in an
attempt structure, so the `try`/`except` structure of the source can be
traced branch by branch. -/

/-- A scalar metadata value (`memory.py` metadata dicts map strings to
scalars). -/
inductive Scalar where
  | null : Scalar
  | bool (b : Bool) : Scalar
  | num (q : Rat) : Scalar
  | str (s : String) : Scalar
deriving Repr, DecidableEq

/-- Metadata attached to a record. -/
abbrev Metadata := List (String × Scalar)

/-- One record held by a Chroma collection. -/
structure MemRecord where
  id : String
  document : String
  metadata : Metadata
  embedding : List Rat
deriving Repr, DecidableEq

/-- The Chroma store: collection name → records, in insertion order. -/
abbrev Store := List (String × List MemRecord)

/-- Availability of the two global clients of `memory.py`:
`chroma` is `_client is not None`, `openai` is `_openai_client is not None`. -/
structure MemEnv where
  chroma : Bool
  openai : Bool
deriving Repr, DecidableEq

/-- `memory.py` `_collection_name`. -/
def _collection_name (user_id : String) : String :=
  "learn_tube_" ++ user_id

/-- Records of a named collection (empty when the collection is missing). -/
def storeRecords (st : Store) (name : String) : List MemRecord :=
  ((st.lookup name).getD [])

/-- Append a record to a named collection. -/
def storeAdd : Store → String → MemRecord → Store
  | [], _, _ => []
  | (k, v) :: t, name, r =>
    if k = name then (k, v ++ [r]) :: storeAdd t name r
    else (k, v) :: storeAdd t name r

/-- All record ids present anywhere in the store. -/
def allDocIds (st : Store) : List String :=
  st.flatMap (fun p => p.2.map (fun r => r.id))

/-- `memory.py` `ensure_collection`: raises when the Chroma client is not
initialized; otherwise returns the (possibly extended) store.  `cf1`/`cf2`
say whether the two `create_collection` attempts fail; when the collection
is missing and both fail, the second exception escapes (it is outside any
handler), so the function raises. -/
def ensure_collection (chroma : Bool) (cf1 cf2 : Bool) (st : Store)
    (user_id : String) : Except String Store :=
  if !chroma then
    .error "Chroma client not initialized. Install/initialize Chroma to use memory."
  else
    let name := _collection_name user_id
    match st.lookup name with
    | some _ => .ok st
    | none =>
      if !cf1 then .ok (st ++ [(name, [])])
      else if !cf2 then .ok (st ++ [(name, [])])
      else .error "create_collection failed"

/-- `memory.py` `make_embedding`: raises when the OpenAI client is missing,
returns `[0.0]` for a whitespace-only text without calling the service, and
otherwise reports the external embedding call's outcome. -/
def make_embedding (openai : Bool) (embedResult : Except String (List Rat))
    (text : String) : Except String (List Rat) :=
  if !openai then
    .error "OPENAI_API_KEY not set or client failed to initialize."
  else if pyStrip text = "" then .ok [0]
  else embedResult

/-- Outcomes of the external calls one `save_interaction` run makes. -/
structure SaveAttempt where
  /-- `create_collection(name, metadata=...)` fails. -/
  cf1 : Bool
  /-- the plain `create_collection(name)` fails. -/
  cf2 : Bool
  /-- outcome of the embedding-service call. -/
  embed : Except String (List Rat)
  /-- whether `collection.add` succeeds. -/
  addOk : Bool
  /-- the generated time-based id used when the caller passes none. -/
  genId : String

/-- The status dict `save_interaction` returns. -/
inductive SaveResult where
  | memory_disabled : SaveResult
  | failed_embedding (id : String) : SaveResult
  | saved (id : String) : SaveResult
deriving Repr, DecidableEq

/-- `memory.py` `save_interaction`: no-op result when Chroma is missing;
`ensure_collection` runs outside any handler, so its failure raises; the
embedding and `collection.add` run inside one `try`, whose handler returns
the `failed_embedding` status without persisting anything (`_client.persist`
failures are swallowed and the store is unaffected, so it is not modelled). -/
def save_interaction (env : MemEnv) (att : SaveAttempt) (st : Store)
    (user_id : String) (text : String) (metadata : Metadata)
    (id : Option String) : Except String (SaveResult × Store) :=
  if !env.chroma then .ok (SaveResult.memory_disabled, st)
  else
    match ensure_collection env.chroma att.cf1 att.cf2 st user_id with
    | .error e => .error e
    | .ok st1 =>
      let theId := match id with | some i => i | none => att.genId
      match make_embedding env.openai att.embed text with
      | .error _ => .ok (SaveResult.failed_embedding theId, st1)
      | .ok emb =>
        if att.addOk then
          .ok (SaveResult.saved theId,
            storeAdd st1 (_collection_name user_id)
              { id := theId, document := text, metadata := metadata,
                embedding := emb })
        else .ok (SaveResult.failed_embedding theId, st1)

/-- Outcomes of the external calls one `get_recent_memory` run makes. -/
structure RecentAttempt where
  cf1 : Bool
  cf2 : Bool
  /-- whether `collection.get(limit=...)` succeeds. -/
  getOk : Bool
deriving Repr, DecidableEq

/-- A record as returned by `get_recent_memory` (id, document, metadata). -/
structure MemDoc where
  id : String
  document : String
  metadata : Metadata
deriving Repr, DecidableEq

/-- `memory.py` `get_recent_memory`: `[]` when Chroma is missing;
`ensure_collection` runs outside the handler; a failing `collection.get`
is caught and yields `[]`.  Chroma's store-defined order is modelled as
insertion order. -/
def get_recent_memory (env : MemEnv) (att : RecentAttempt) (st : Store)
    (user_id : String) (limit : Nat) : Except String (List MemDoc) :=
  if !env.chroma then .ok []
  else
    match ensure_collection env.chroma att.cf1 att.cf2 st user_id with
    | .error e => .error e
    | .ok st1 =>
      if att.getOk then
        .ok (((storeRecords st1 (_collection_name user_id)).take limit).map
          (fun r => { id := r.id, document := r.document, metadata := r.metadata }))
      else .ok []

/-- Outcomes of the external calls one `get_relevant_memory` run makes.
`rank` is the external similarity search: how Chroma orders the stored
records and what distance it reports for each. -/
structure QueryAttempt where
  cf1 : Bool
  cf2 : Bool
  /-- outcome of the embedding-service call on the query. -/
  embed : Except String (List Rat)
  /-- whether `collection.query` succeeds. -/
  searchOk : Bool
  /-- external similarity ranking with distances. -/
  rank : List MemRecord → List (MemRecord × Rat)
  /-- whether the fallback `collection.get(limit=top_k)` succeeds. -/
  getOk : Bool

/-- A record as returned by `get_relevant_memory`. -/
structure RelDoc where
  id : String
  document : String
  metadata : Metadata
  distance : Option Rat
deriving Repr, DecidableEq

/-- `memory.py` `get_relevant_memory`: `[]` when Chroma is missing or the
query is empty; `ensure_collection` runs outside the handlers; the query
embedding and `collection.query` run inside the first `try` — on either
failure the handler falls back to `collection.get(limit=top_k)` with every
`distance` set to `None`, and a failure of the fallback itself yields `[]`. -/
def get_relevant_memory (env : MemEnv) (att : QueryAttempt) (st : Store)
    (user_id : String) (query : String) (top_k : Nat) :
    Except String (List RelDoc) :=
  if !env.chroma || query = "" then .ok []
  else
    match ensure_collection env.chroma att.cf1 att.cf2 st user_id with
    | .error e => .error e
    | .ok st1 =>
      let recs := storeRecords st1 (_collection_name user_id)
      let attempt : Except String (List RelDoc) :=
        match make_embedding env.openai att.embed query with
        | .error e => .error e
        | .ok _ =>
          if att.searchOk then
            .ok (((att.rank recs).take top_k).map (fun p =>
              { id := p.1.id, document := p.1.document,
                metadata := p.1.metadata, distance := some p.2 }))
          else .error "collection.query failed"
      match attempt with
      | .ok out => .ok out
      | .error _ =>
        if att.getOk then
          .ok ((recs.take top_k).map (fun r =>
            { id := r.id, document := r.document, metadata := r.metadata,
              distance := none }))
        else .ok []

/-- Model of `json.dumps` on a scalar metadata value. -/
def scalarDumps : Scalar → String
  | Scalar.null => "null"
  | Scalar.bool true => "true"
  | Scalar.bool false => "false"
  | Scalar.num q => toString q
  | Scalar.str s => "\"" ++ s ++ "\""

/-- Model of `json.dumps` on a metadata dict (string escaping is not
modelled; no claim depends on the rendered text). -/
def metaDumps (m : Metadata) : String :=
  "\x7b" ++
    String.intercalate ", "
      (m.map (fun p => "\"" ++ p.1 ++ "\": " ++ scalarDumps p.2)) ++
  "\x7d"

/-- One numbered block of `build_memory_context`. -/
def memoryBlock (i : Nat) (r : RelDoc) : String :=
  "[MEMORY " ++ toString i ++ "] meta=" ++ metaDumps r.metadata ++ "\n" ++
    r.document ++ "\n"

/-- `memory.py` `build_memory_context`: render the relevant records as
numbered blocks joined by newlines.  It adds no handler of its own, so an
exception escaping `get_relevant_memory` escapes it too. -/
def build_memory_context (env : MemEnv) (att : QueryAttempt) (st : Store)
    (user_id : String) (query : String) (top_k : Nat) :
    Except String String :=
  match get_relevant_memory env att st user_id query top_k with
  | .error e => .error e
  | .ok relevant =>
    .ok (String.intercalate "\n"
      (relevant.enum.map (fun p => memoryBlock (p.1 + 1) p.2)))

/-! ## Profile scraper (`backend/scraper.py`)

The Apify actor run and the dataset fetch are external calls; their
outcomes are parameters.  The `try` around them catches every exception
and substitutes a placeholder profile, so only the missing-token check at
the top can raise. -/

/-- One experience entry as the Apify actor returns it.  The nested
`startsAt`/`endsAt` year fields are modelled already stringified (the
source splices them into an f-string). -/
structure RawExperience where
  title : Option String
  companyName : Option String
  startsAtYear : Option String
  endsAtYear : Option String
deriving Repr, DecidableEq

/-- One raw item of the actor's dataset. -/
structure ScrapedItem where
  fullName : Option String
  profileName : Option String
  headline : Option String
  summary : Option String
  skills : List String
  experience : List RawExperience
deriving Repr, DecidableEq

/-- A mapped experience entry of the project schema. -/
structure Experience where
  title : String
  company : String
  date : String
deriving Repr, DecidableEq

/-- The normalized profile record of the project schema. -/
structure Profile where
  name : String
  headline : String
  about : String
  experience : List Experience
  skills : List String
deriving Repr, DecidableEq

/-- The placeholder profile returned when the actor yields no items. -/
def apifyFailedProfile : Profile :=
  { name := "Apify Failed", headline := "",
    about := "No data returned by Apify Actor.", experience := [], skills := [] }

/-- The placeholder profile the `except` handler returns when the Apify
call raises, carrying the exception text in the headline. -/
def apifyErrorProfile (e : String) : Profile :=
  { name := "Apify Error", headline := e,
    about := "Check Apify logs or credits.", experience := [], skills := [] }

/-- The date string `scraper.py` builds for one experience entry. -/
def dateInfo (e : RawExperience) : String :=
  (e.startsAtYear.getD "") ++ " - " ++ (e.endsAtYear.getD "Present")

/-- The Apify-item → project-schema mapping of `scraper.py`. -/
def mapScrapedItem (item : ScrapedItem) : Profile :=
  { name := item.fullName.getD (item.profileName.getD ""),
    headline := item.headline.getD "",
    about := item.summary.getD "",
    experience := item.experience.map (fun e =>
      { title := e.title.getD "", company := e.companyName.getD "",
        date := dateInfo e }),
    skills := item.skills }

/-- `scraper.py` `scrape_profile`: raises only when `APIFY_API_TOKEN` is
missing; a failing actor run or dataset fetch is caught and a placeholder
profile is returned; an empty dataset yields the `Apify Failed`
placeholder. -/
def scrape_profile (token : Bool) (runOutcome : Except String Unit)
    (itemsOutcome : Except String (List ScrapedItem)) :
    Except String Profile :=
  if !token then
    .error "APIFY_API_TOKEN not set. Cannot use Apify scraper."
  else
    match runOutcome with
    | .error e => .ok (apifyErrorProfile e)
    | .ok _ =>
      match itemsOutcome with
      | .error e => .ok (apifyErrorProfile e)
      | .ok [] => .ok apifyFailedProfile
      | .ok (item :: _) => .ok (mapScrapedItem item)

/-! ## Orchestrators (`backend/agents.py`)

The Groq client handle is a boolean (`groq` = `client is not None`); the
completion call's outcome is a parameter.  The prompt strings feed only
the external completion service, whose reply is already a parameter, so
they are not reproduced here. -/

/-- Python `x or default` on an optional string (`None` and `""` are
falsy). -/
def pyOr (t : Option String) (d : String) : String :=
  match t with
  | some s => if s = "" then d else s
  | none => d

/-- The optional target job as a metadata scalar (Python `None` → null). -/
def scalarOfOpt (t : Option String) : Scalar :=
  match t with
  | some s => Scalar.str s
  | none => Scalar.null

/-- Python `str()` on a parsed JSON value, used for non-list rewritten
sections (container rendering abbreviated; no claim depends on the
rendered text, which only feeds saved documents). -/
def pyStr : Json → String
  | Json.str s => s
  | Json.null => "None"
  | Json.bool true => "True"
  | Json.bool false => "False"
  | Json.num q => toString q
  | Json.arr _ => "[...]"
  | Json.obj _ => "..."

/-- Python `"\n".join(value)` on a parsed JSON list: succeeds only when
every element is a string, else raises `TypeError`. -/
def pyJoinNl (l : List Json) : Except String String :=
  if l.all (fun j => match j with | Json.str _ => true | _ => false) then
    .ok (String.intercalate "\n"
      (l.map (fun j => match j with | Json.str s => s | _ => "")))
  else .error "TypeError: sequence item is not str"

/-- Rendering of the normalized score into the saved summary text
(Python `str` of `None` or of a float). -/
def scoreStr : Option Rat → String
  | none => "None"
  | some q => toString q

/-- The loop of step 8 of `analyze_profile` that persists each rewritten
section.  The first exception (a `TypeError` from the join or a raise out
of `save_interaction`) escapes to the enclosing `try`, which keeps the
store reached so far and abandons the remaining iterations. -/
def persistRewrittenLoop (env : MemEnv) (atts : Nat → SaveAttempt)
    (user_id : String) (target_job : Option String) :
    Store → Nat → List (String × Json) → Store
  | st, _, [] => st
  | st, i, (k, v) :: rest =>
    match (match v with | Json.arr l => pyJoinNl l | w => .ok (pyStr w)) with
    | .error _ => st
    | .ok text_val =>
      match save_interaction env (atts i) st user_id
          ("rewritten_" ++ k ++ ": " ++ text_val)
          [("type", Scalar.str "rewritten"), ("section", Scalar.str k),
           ("target_job", scalarOfOpt target_job)] none with
      | .error _ => st
      | .ok p => persistRewrittenLoop env atts user_id target_job p.2 (i + 1) rest

/-- The aggregate result `analyze_profile` returns. -/
structure AnalysisResult where
  profile : Profile
  analysis_text : String
  match_score : Option Rat
  recommendations : Json
  rewritten_sections : Json
deriving Repr

/-- `agents.py` `analyze_profile`.  External outcomes: `token`/`run`/
`items` for the scrape, `a3` for the step-3 save, `a4` for the memory
context, `groq`/`completion` for the completion service, `a8` and `a8s`
for the step-8 saves.  Returns the result and the final store, or the
propagated error. -/
def analyze_profile (env : MemEnv) (token : Bool)
    (run : Except String Unit) (items : Except String (List ScrapedItem))
    (a3 : SaveAttempt) (a4 : QueryAttempt) (groq : Bool)
    (completion : Except String String) (a8 : SaveAttempt)
    (a8s : Nat → SaveAttempt) (st : Store) (linkedin_url : String)
    (target_job : Option String) (user_id : String) :
    Except String (AnalysisResult × Store) :=
  match scrape_profile token run items with
  | .error e => .error ("Failed to scrape LinkedIn profile: " ++ e)
  | .ok profile =>
    let _job_desc := _synthesize_job_description target_job
    let st3 :=
      match save_interaction env a3 st user_id
          ("Requested analysis for URL: " ++ linkedin_url ++
            ", target_job: " ++ pyOr target_job "none")
          [("type", Scalar.str "analysis_request"),
           ("url", Scalar.str linkedin_url),
           ("target_job", scalarOfOpt target_job)] none with
      | .error _ => st
      | .ok p => p.2
    let _memory_context :=
      match build_memory_context env a4 st3 user_id
          (pyOr target_job "career profile") 6 with
      | .error _ => ""
      | .ok c => c
    if !groq then .error "Groq client not initialized."
    else
      match completion with
      | .error e => .error ("Groq request failed: " ++ e)
      | .ok content =>
        let analysis_text := pyStrip content
        let parsed := _extract_structured_from_model analysis_text.toList
        let match_score := normalize_match_score (dictGet parsed "match_score")
        let recommendations :=
          let r := dictGet parsed "recommendations"
          if jsonFalsy r then Json.arr [] else r
        let rewritten :=
          let r := dictGet parsed "rewritten_sections"
          if jsonFalsy r then Json.obj [] else r
        let st8 :=
          match save_interaction env a8 st3 user_id
              ("Analysis result for " ++ linkedin_url ++ ": score=" ++
                scoreStr match_score ++ "; recs=" ++ pyStr recommendations)
              [("type", Scalar.str "analysis_result"),
               ("match_score",
                 match match_score with
                 | some q => Scalar.num q
                 | none => Scalar.null),
               ("target_job", scalarOfOpt target_job)] none with
          | .error _ => st3
          | .ok p =>
            match rewritten with
            | Json.obj fields =>
              persistRewrittenLoop env a8s user_id target_job p.2 0 fields
            | _ => p.2
        .ok ({ profile := profile, analysis_text := analysis_text,
               match_score := match_score,
               recommendations := recommendations,
               rewritten_sections := rewritten }, st8)

/-- The fixed apology `chat_agent` returns when the completion call
fails. -/
def apologyMessage : String :=
  "I'm sorry, I seem to be having trouble processing your request right now. Please try again later."

/-- The fixed reply `chat_agent` returns when the Groq client was never
initialized. -/
def unavailableMessage : String :=
  "I'm sorry, the AI service is currently unavailable due to an initialization error."

/-- `agents.py` `chat_agent`: build the memory context (failures →
empty), return the fixed unavailability reply before any persistence when
the Groq client is `None`, otherwise call the completion service (failure
→ the fixed apology), then persist the user message and the reply inside
one `try` whose handler swallows any failure. -/
def chat_agent (env : MemEnv) (aCtx : QueryAttempt) (groq : Bool)
    (completion : Except String String) (aU aA : SaveAttempt)
    (st : Store) (user_id : String) (message : String) : String × Store :=
  let better_query :=
    "Based on the user's most recent profile analysis and the message: " ++
      message ++ ". Focus on the last target job and match score."
  let _memory_context :=
    match build_memory_context env aCtx st user_id better_query 8 with
    | .error _ => ""
    | .ok c => c
  if !groq then (unavailableMessage, st)
  else
    let assistant_reply :=
      match completion with
      | .ok content => pyStrip content
      | .error _ => apologyMessage
    let st2 :=
      match save_interaction env aU st user_id message
          [("type", Scalar.str "chat_user")] none with
      | .error _ => st
      | .ok p =>
        match save_interaction env aA p.2 user_id assistant_reply
            [("type", Scalar.str "chat_assistant")] none with
        | .error _ => p.2
        | .ok p2 => p2.2
    (assistant_reply, st2)

/-! ## Helper lemmas -/

/-- Is an `Except` value a success? -/
def exceptOk {α β : Type} : Except α β → Bool
  | .ok _ => true
  | .error _ => false

theorem firstIdxP_append_cons (p : Char → Bool) (l1 : List Char) (c : Char)
    (l2 : List Char) (h1 : ∀ a ∈ l1, p a = false) (hc : p c = true) :
    firstIdxP p (l1 ++ c :: l2) = some l1.length := by
  induction l1 with
  | nil => simp [firstIdxP, hc]
  | cons a as ih =>
    have ha : p a = false := h1 a (List.mem_cons_self a as)
    simp [firstIdxP, ha,
      ih (fun b hb => h1 b (List.mem_cons_of_mem a hb))]

theorem lastIdxP_append_cons (p : Char → Bool) (l1 : List Char) (c : Char)
    (l2 : List Char) (h2 : ∀ a ∈ l2, p a = false) (hc : p c = true) :
    lastIdxP p (l1 ++ c :: l2) = some l1.length := by
  unfold lastIdxP
  have hrev : (l1 ++ c :: l2).reverse = l2.reverse ++ c :: l1.reverse := by
    simp
  rw [hrev, firstIdxP_append_cons p l2.reverse c l1.reverse
    (fun a ha => h2 a (List.mem_reverse.mp ha)) hc]
  simp

theorem pySlice_middle (p1 mid p2 : List Char) :
    pySlice (p1 ++ mid ++ p2) p1.length (p1.length + mid.length) = mid := by
  unfold pySlice
  rw [List.append_assoc, List.drop_left, Nat.add_sub_cancel_left,
    List.take_left]

/-! ## Claims -/

/-- **C4.** The structured result is extracted by locating the first
opening brace and the last closing brace and parsing the enclosed
substring: for every string made of leading prose without an opening
brace, a valid braced JSON object, and trailing prose without a closing
brace, extraction returns exactly the parsed object and ignores the prose;
when the enclosed substring does not parse, and when no brace pair can be
located, the result is the fixed fallback (`match_score` null, empty
recommendations, empty rewritten sections); the extraction function is
total, so it never raises. -/
theorem extract_structured_spec :
    (∀ p1 mid p2 : List Char, ∀ v : Json,
      (∀ a ∈ p1, a ≠ lbraceC) → (∀ a ∈ p2, a ≠ rbraceC) →
      json_loads (lbraceC :: mid ++ [rbraceC]) = some v →
      _extract_structured_from_model
        (p1 ++ (lbraceC :: mid ++ [rbraceC]) ++ p2) = v) ∧
    (∀ s i j, firstIdxP (fun c => c = lbraceC) s = some i →
      lastIdxP (fun c => c = rbraceC) s = some j →
      json_loads (pySlice s i (j + 1)) = none →
      _extract_structured_from_model s = defaultExtract) ∧
    (∀ s, firstIdxP (fun c => c = lbraceC) s = none ∨
        lastIdxP (fun c => c = rbraceC) s = none →
      _extract_structured_from_model s = defaultExtract) := by
  refine ⟨?_, ?_, ?_⟩
  · intro p1 mid p2 v h1 h2 hv
    have hfirst : firstIdxP (fun c => c = lbraceC)
        (p1 ++ (lbraceC :: mid ++ [rbraceC]) ++ p2) = some p1.length := by
      have := firstIdxP_append_cons (fun c => c = lbraceC) p1 lbraceC
        ((mid ++ [rbraceC]) ++ p2)
        (fun a ha => by simpa using h1 a ha) (by simp)
      simpa using this
    have hlast : lastIdxP (fun c => c = rbraceC)
        (p1 ++ (lbraceC :: mid ++ [rbraceC]) ++ p2) =
        some (p1 ++ lbraceC :: mid).length := by
      have := lastIdxP_append_cons (fun c => c = rbraceC)
        (p1 ++ lbraceC :: mid) rbraceC p2
        (fun a ha => by simpa using h2 a ha) (by simp)
      have heq : (p1 ++ lbraceC :: mid) ++ rbraceC :: p2 =
          p1 ++ (lbraceC :: mid ++ [rbraceC]) ++ p2 := by simp
      rw [heq] at this
      exact this
    have hslice : pySlice (p1 ++ (lbraceC :: mid ++ [rbraceC]) ++ p2)
        p1.length ((p1 ++ lbraceC :: mid).length + 1) =
        lbraceC :: mid ++ [rbraceC] := by
      have hlen : (p1 ++ lbraceC :: mid).length + 1 =
          p1.length + (lbraceC :: mid ++ [rbraceC]).length := by
        simp; omega
      rw [hlen]
      exact pySlice_middle p1 (lbraceC :: mid ++ [rbraceC]) p2
    unfold _extract_structured_from_model
    rw [hfirst, hlast]
    dsimp only
    rw [hslice, hv]
  · intro s i j hi hj hp
    unfold _extract_structured_from_model
    rw [hi, hj]
    dsimp only
    rw [hp]
  · intro s hs
    unfold _extract_structured_from_model
    rcases hs with h | h
    · rw [h]
    · rw [h]
      rcases firstIdxP (fun c => c = lbraceC) s with _ | _ <;> rfl

/-- Witness for C4: prose around a valid JSON object is ignored and the
object's fields are returned. -/
theorem extract_structured_spec_witness :
    _extract_structured_from_model
      (("Sure! Here is the analysis you asked for: ").toList ++
        (lbraceC :: ("\"match_score\": 42, \"recommendations\": [\"a\"]").toList ++
          [rbraceC]) ++
        (" Hope this helps.").toList) =
      Json.obj [("match_score", Json.num 42),
                ("recommendations", Json.arr [Json.str "a"])] := by
  exact extract_structured_spec.1
    ("Sure! Here is the analysis you asked for: ").toList
    ("\"match_score\": 42, \"recommendations\": [\"a\"]").toList
    (" Hope this helps.").toList
    (Json.obj [("match_score", Json.num 42),
               ("recommendations", Json.arr [Json.str "a"])])
    (by decide) (by decide) (by rfl)

/-- **C3, counterexample.** The claim says every non-numeric
`match_score` normalizes to null, but a parsed JSON boolean is not a JSON
number and still normalizes to a number: Python `bool` is an `int`
subclass, so `isinstance(True, (int, float))` holds and `true` is clamped
as `1.0`. -/
theorem normalize_match_score_bool_counterexample :
    (∀ q : Rat, Json.bool true ≠ Json.num q) ∧
    normalize_match_score (Json.bool true) = some 1 := by
  exact ⟨fun q h => Json.noConfusion h, rfl⟩

/-- **C3, amended.** A numeric `match_score` is clamped into [0,100]
(below 0 becomes 0, above 100 becomes 100, in-range values unchanged); a
boolean becomes 1 or 0 (Python `bool` passes the `isinstance` number
test); every other non-numeric value normalizes to null. -/
theorem normalize_match_score_spec (v : Json) :
    (∀ q : Rat, v = Json.num q →
      (q < 0 → normalize_match_score v = some 0) ∧
      (100 < q → normalize_match_score v = some 100) ∧
      (0 ≤ q → q ≤ 100 → normalize_match_score v = some q)) ∧
    (∀ b : Bool, v = Json.bool b →
      normalize_match_score v = some (if b then 1 else 0)) ∧
    ((∀ q : Rat, v ≠ Json.num q) → (∀ b : Bool, v ≠ Json.bool b) →
      normalize_match_score v = none) := by
  refine ⟨?_, ?_, ?_⟩
  · rintro q rfl
    refine ⟨fun hlt => ?_, fun hgt => ?_, fun hle hge => ?_⟩
    · simp [normalize_match_score, hlt]
    · have h0 : ¬ q < 0 := not_lt.mpr (le_trans (by norm_num) (le_of_lt hgt))
      simp [normalize_match_score, h0, hgt]
    · simp [normalize_match_score, not_lt.mpr hle, not_lt.mpr hge]
  · rintro b rfl
    rfl
  · intro hq hb
    cases v with
    | num q => exact absurd rfl (hq q)
    | bool b => exact absurd rfl (hb b)
    | null => rfl
    | str s => rfl
    | arr l => rfl
    | obj l => rfl

/-- Witness for C3: a numeric score above range is clamped to 100. -/
theorem normalize_match_score_spec_witness :
    normalize_match_score (Json.num 150) = some 100 := by
  exact ((normalize_match_score_spec (Json.num 150)).1 150 rfl).2.1 (by norm_num)

set_option maxRecDepth 40000 in
/-- **C9, counterexample.** The claim says a given title appears verbatim
in the synthesized description, but the source strips the title first:
the title " X " (with surrounding spaces) does not occur verbatim in the
description, which contains only the stripped 'X' between quote marks. -/
theorem synthesize_job_description_counterexample :
    strContains (_synthesize_job_description (some " X ")) " X " = false := by
  decide

theorem startsWithChars_append_self (sub rest : List Char) :
    startsWithChars (sub ++ rest) sub = true := by
  induction sub with
  | nil => simp [startsWithChars]
  | cons c cs ih => simp [startsWithChars, ih]

theorem containsSeg_append_middle (a b c : List Char) :
    containsSeg (a ++ b ++ c) b = true := by
  induction a with
  | nil =>
    rw [List.nil_append]
    unfold containsSeg
    rw [startsWithChars_append_self]
    simp
  | cons x xs ih =>
    unfold containsSeg
    rcases h : startsWithChars (x :: xs ++ b ++ c) b with _ | _
    · simpa [h] using ih
    · simp [h]

theorem strContains_append_middle (a b c : String) :
    strContains (a ++ b ++ c) b = true := by
  unfold strContains
  have h : (a ++ b ++ c).toList = a.toList ++ b.toList ++ c.toList := by
    simp [String.toList, String.data_append]
  rw [h]
  exact containsSeg_append_middle a.toList b.toList c.toList

/-- **C9, amended.** With the job title absent the synthesized description
is exactly the fixed generic transferable-skills template; an empty-string
title is falsy in Python and also yields the generic template; a nonempty
title yields the fixed role template, which contains the
whitespace-stripped title verbatim (the original title appears verbatim
only when it carries no leading/trailing whitespace). -/
theorem synthesize_job_description_spec (t : Option String) :
    (t = none → _synthesize_job_description t = genericJobDescription) ∧
    (t = some "" → _synthesize_job_description t = genericJobDescription) ∧
    (∀ s : String, t = some s → s ≠ "" →
      strContains (_synthesize_job_description t) (pyStrip s) = true) := by
  refine ⟨?_, ?_, ?_⟩
  · rintro rfl; rfl
  · rintro rfl; rfl
  · rintro s rfl hne
    simp only [_synthesize_job_description]
    rw [if_neg hne]
    have hshape :
        ("Canonical responsibilities and skills for the role " ++ sq ++ pyStrip s ++ sq ++ ":\n" ++
          "- Core responsibilities: deliver outcomes relevant to the role, collaborate cross-functionally, and manage stakeholder communication.\n" ++
          "- Common skills: relevant technical skills for the title, domain knowledge, problem-solving, communication, and measurable achievements.\n" ++
          "- Typical deliverables: project outcomes, metrics/KPIs, and domain-specific examples (e.g., product launches, model accuracy improvements, revenue impact).\n") =
        ("Canonical responsibilities and skills for the role " ++ sq) ++ pyStrip s ++
          (sq ++ ":\n" ++
          "- Core responsibilities: deliver outcomes relevant to the role, collaborate cross-functionally, and manage stakeholder communication.\n" ++
          "- Common skills: relevant technical skills for the title, domain knowledge, problem-solving, communication, and measurable achievements.\n" ++
          "- Typical deliverables: project outcomes, metrics/KPIs, and domain-specific examples (e.g., product launches, model accuracy improvements, revenue impact).\n") := by
      simp [String.append_assoc]
    rw [hshape]
    exact strContains_append_middle _ _ _

/-- Witness for C9: a concrete nonempty title is contained (stripped)
in the synthesized description. -/
theorem synthesize_job_description_spec_witness :
    strContains (_synthesize_job_description (some "Product Manager"))
      (pyStrip "Product Manager") = true := by
  exact (synthesize_job_description_spec (some "Product Manager")).2.2
    "Product Manager" rfl (by decide)

/-! ### Store helper lemmas -/

/-- `ensure_collection` succeeds exactly when the collection already
exists or one of the two creation attempts works. -/
def collCreatable (st : Store) (u : String) (cf1 cf2 : Bool) : Prop :=
  (st.lookup (_collection_name u)).isSome = true ∨ cf1 = false ∨ cf2 = false

theorem lookup_append_left_none {β : Type} {l1 l2 : List (String × β)}
    {a : String} (h : l1.lookup a = none) :
    (l1 ++ l2).lookup a = l2.lookup a := by
  induction l1 with
  | nil => simp
  | cons p t ih =>
    match p with
    | (k, v) =>
      simp only [List.cons_append, List.lookup] at h ⊢
      cases hk : (a == k) with
      | true => rw [hk] at h; simp at h
      | false => rw [hk] at h; exact ih h

theorem ensure_collection_ok (st : Store) (u : String) (cf1 cf2 : Bool)
    (h : collCreatable st u cf1 cf2) :
    ∃ st1, ensure_collection true cf1 cf2 st u = .ok st1 ∧
      (st1.lookup (_collection_name u)).isSome = true ∧
      storeRecords st1 (_collection_name u) =
        storeRecords st (_collection_name u) ∧
      allDocIds st1 = allDocIds st := by
  unfold ensure_collection
  cases hl : st.lookup (_collection_name u) with
  | some l =>
    refine ⟨st, by simp [hl], by simp [hl], rfl, rfl⟩
  | none =>
    have hcf : cf1 = false ∨ cf2 = false := by
      rcases h with h | h | h
      · rw [hl] at h; simp at h
      · exact Or.inl h
      · exact Or.inr h
    refine ⟨st ++ [(_collection_name u, [])], ?_, ?_, ?_, ?_⟩
    · rcases hcf with h | h
      · simp [hl, h]
      · cases hc1 : cf1 <;> simp [hl, hc1, h]
    · rw [lookup_append_left_none hl]; simp [List.lookup]
    · unfold storeRecords
      rw [lookup_append_left_none hl, hl]; simp [List.lookup]
    · unfold allDocIds; simp [allDocIds]

theorem mem_allDocIds_of_lookup {st : Store} {name : String}
    {l : List MemRecord} {r : MemRecord} (h : st.lookup name = some l)
    (hr : r ∈ l) : r.id ∈ allDocIds st := by
  induction st with
  | nil => simp at h
  | cons p t ih =>
    match p with
    | (k, v) =>
      simp only [List.lookup] at h
      simp only [allDocIds, List.flatMap_cons, List.mem_append]
      cases hk : (name == k) with
      | true =>
        rw [hk] at h
        have hv : v = l := by simpa using h
        subst hv
        exact Or.inl (List.mem_map_of_mem (fun x => x.id) hr)
      | false =>
        rw [hk] at h
        exact Or.inr (by simpa [allDocIds] using ih h)

theorem lookup_storeAdd_self (st : Store) (name : String) (r : MemRecord)
    (h : (st.lookup name).isSome = true) :
    (storeAdd st name r).lookup name = some (storeRecords st name ++ [r]) := by
  induction st with
  | nil => simp at h
  | cons p t ih =>
    match p with
    | (k, v) =>
      by_cases hk : k = name
      · subst hk
        simp [storeAdd, List.lookup, storeRecords]
      · have hbeq : (name == k) = false := by
          simp only [beq_eq_false_iff_ne, ne_eq]
          exact fun hh => hk hh.symm
        have ht : (List.lookup name t).isSome = true := by
          simpa [List.lookup, hbeq] using h
        have hsr : storeRecords ((k, v) :: t) name = storeRecords t name := by
          simp [storeRecords, List.lookup, hbeq]
        rw [hsr]
        simp only [storeAdd, if_neg hk, List.lookup, hbeq]
        exact ih ht

theorem save_interaction_ok (env : MemEnv) (att : SaveAttempt) (st : Store)
    (u text : String) (meta : Metadata)
    (hch : env.chroma = true)
    (hcoll : collCreatable st u att.cf1 att.cf2)
    (hemb : ∃ v, make_embedding env.openai att.embed text = .ok v)
    (hadd : att.addOk = true) :
    ∃ emb st', save_interaction env att st u text meta none =
        .ok (SaveResult.saved att.genId, st') ∧
      make_embedding env.openai att.embed text = .ok emb ∧
      storeRecords st' (_collection_name u) =
        storeRecords st (_collection_name u) ++
          [{ id := att.genId,
             document := text,
             metadata := meta,
             embedding := emb }] ∧
      (st'.lookup (_collection_name u)).isSome = true := by
  obtain ⟨st1, hst1, hsome, hrec, _⟩ :=
    ensure_collection_ok st u att.cf1 att.cf2 hcoll
  obtain ⟨v, hv⟩ := hemb
  refine ⟨v, storeAdd st1 (_collection_name u)
    { id := att.genId,
      document := text,
      metadata := meta,
      embedding := v },
    ?_, hv, ?_, ?_⟩
  · unfold save_interaction
    rw [hch, hst1, hv, hadd]
    rfl
  · have hadded : storeRecords (storeAdd st1 (_collection_name u)
        { id := att.genId,
          document := text,
          metadata := meta,
          embedding := v }) (_collection_name u) =
        storeRecords st1 (_collection_name u) ++
          [{ id := att.genId,
             document := text,
             metadata := meta,
             embedding := v }] := by
      unfold storeRecords
      rw [lookup_storeAdd_self st1 _ _ hsome]
      rfl
    rw [hadded, hrec]
  · rw [lookup_storeAdd_self st1 _ _ hsome]
    rfl

theorem get_relevant_memory_ok (env : MemEnv) (att : QueryAttempt)
    (st : Store) (u q : String) (k : Nat)
    (hcoll : collCreatable st u att.cf1 att.cf2) :
    ∃ l, get_relevant_memory env att st u q k = .ok l ∧
      l.length ≤ k ∧
      (storeRecords st (_collection_name u) = [] → att.rank [] = [] →
        l = []) := by
  unfold get_relevant_memory
  by_cases hch : env.chroma = false
  · rw [hch]
    exact ⟨[], rfl, by simp, fun _ _ => rfl⟩
  · have hch2 : env.chroma = true := by
      cases h : env.chroma
      · exact absurd h hch
      · rfl
    rw [hch2]
    by_cases hq : q = ""
    · subst hq
      exact ⟨[], by simp, by simp, fun _ _ => rfl⟩
    · obtain ⟨st1, hst1, _, hrec, _⟩ :=
        ensure_collection_ok st u att.cf1 att.cf2 hcoll
      have hqb : (decide (q = "")) = false := decide_eq_false hq
      simp only [hqb, Bool.not_true, Bool.or_false, Bool.false_eq_true,
        if_false, hst1]
      cases hemb : make_embedding env.openai att.embed q with
      | error e =>
        cases hget : att.getOk with
        | true =>
          refine ⟨((storeRecords st1 (_collection_name u)).take k).map
            (fun r => { id := r.id,
                        document := r.document,
                        metadata := r.metadata,
                        distance := none }), ?_, ?_, ?_⟩
          · simp only [hemb, hget, if_true]
          · simp only [List.length_map, List.length_take]
            omega
          · intro hempty _
            have h1 : storeRecords st1 (_collection_name u) = [] :=
              hrec.trans hempty
            simp [h1]
        | false =>
          exact ⟨[], by simp only [hemb, hget, Bool.false_eq_true, if_false],
            by simp, fun _ _ => rfl⟩
      | ok emb =>
        cases hsearch : att.searchOk with
        | true =>
          refine ⟨((att.rank (storeRecords st1 (_collection_name u))).take
              k).map
            (fun p => { id := p.1.id,
                        document := p.1.document,
                        metadata := p.1.metadata,
                        distance := some p.2 }), ?_, ?_, ?_⟩
          · simp only [hemb, hsearch, if_true]
          · simp only [List.length_map, List.length_take]
            omega
          · intro hempty hrank
            have h1 : storeRecords st1 (_collection_name u) = [] :=
              hrec.trans hempty
            simp [h1, hrank]
        | false =>
          cases hget : att.getOk with
          | true =>
            refine ⟨((storeRecords st1 (_collection_name u)).take k).map
              (fun r => { id := r.id,
                          document := r.document,
                          metadata := r.metadata,
                          distance := none }), ?_, ?_, ?_⟩
            · simp only [hemb, hsearch, hget, Bool.false_eq_true, if_false,
                if_true]
            · simp only [List.length_map, List.length_take]
              omega
            · intro hempty _
              have h1 : storeRecords st1 (_collection_name u) = [] :=
                hrec.trans hempty
              simp [h1]
          | false =>
            exact ⟨[], by simp only [hemb, hsearch, hget, Bool.false_eq_true,
              if_false], by simp, fun _ _ => rfl⟩

/-- A query attempt whose external calls all succeed (used to
instantiate theorems at concrete inputs). -/
def trivialQuery : QueryAttempt :=
  { cf1 := false, cf2 := false, embed := .ok [1], searchOk := true,
    rank := fun rs => rs.map (fun r => (r, 0)), getOk := true }

/-- A query attempt in which both collection-creation calls fail. -/
def collFailQuery : QueryAttempt :=
  { cf1 := true, cf2 := true, embed := .ok [1], searchOk := true,
    rank := fun rs => rs.map (fun r => (r, 0)), getOk := true }

/-- **C2, counterexample.** The claim says `build_memory_context` never
raises on any failure of the underlying retrieval, but
`ensure_collection` runs outside every handler in
`get_relevant_memory`: when the user's collection does not exist and both
`create_collection` attempts fail, the exception propagates out of
`build_memory_context` instead of yielding the empty string. -/
theorem build_memory_context_counterexample :
    build_memory_context { chroma := true, openai := true } collFailQuery []
      "u1" "career profile" 5 = .error "create_collection failed" := by
  rfl

/-- **C2, amended.** `build_memory_context` returns the empty string when
the store backend is unavailable, when `top_k = 0`, and when no records
exist for the user; and it never raises on failures of the query
embedding, the similarity search or the fallback read — provided the
collection lookup-or-creation succeeds (when the collection is missing
and both creation attempts fail, the error propagates). -/
theorem build_memory_context_spec (env : MemEnv) (att : QueryAttempt)
    (st : Store) (u q : String) (k : Nat) :
    (env.chroma = false → build_memory_context env att st u q k = .ok "") ∧
    (collCreatable st u att.cf1 att.cf2 →
      (k = 0 → build_memory_context env att st u q k = .ok "") ∧
      (storeRecords st (_collection_name u) = [] → att.rank [] = [] →
        build_memory_context env att st u q k = .ok "") ∧
      exceptOk (build_memory_context env att st u q k) = true) := by
  constructor
  · intro hch
    unfold build_memory_context get_relevant_memory
    rw [hch]
    rfl
  · intro hcoll
    obtain ⟨l, hl, hlen, hempty⟩ :=
      get_relevant_memory_ok env att st u q k hcoll
    refine ⟨?_, ?_, ?_⟩
    · rintro rfl
      have hnil : l = [] := List.length_eq_zero.mp (Nat.le_zero.mp hlen)
      unfold build_memory_context
      rw [hl, hnil]
      rfl
    · intro h1 h2
      unfold build_memory_context
      rw [hl, hempty h1 h2]
      rfl
    · unfold build_memory_context
      rw [hl]
      rfl

/-- Witness for C2 (amended): with a reachable collection and `top_k = 0`
the context is the empty string. -/
theorem build_memory_context_spec_witness :
    build_memory_context { chroma := true, openai := true } trivialQuery []
      "u1" "career profile" 0 = .ok "" :=
  ((build_memory_context_spec { chroma := true, openai := true }
    trivialQuery [] "u1" "career profile" 0).2
    (Or.inr (Or.inl rfl))).1 rfl

/-- A save attempt whose embedding call fails with a rate-limit error. -/
def failEmbedSave : SaveAttempt :=
  { cf1 := false, cf2 := false, embed := .error "429 rate limited",
    addOk := true, genId := "id-1" }

/-- **C5.** When the embedding service fails during `save_interaction`,
the record is not persisted (the set of stored record ids is unchanged),
a degraded `failed_embedding` status is returned instead of an exception,
and a subsequent `get_recent_memory` call does not include the failed
record's id. -/
theorem save_interaction_embedding_failure (env : MemEnv)
    (att : SaveAttempt) (st : Store) (u text : String) (meta : Metadata)
    (oid : Option String)
    (hch : env.chroma = true)
    (hcoll : collCreatable st u att.cf1 att.cf2)
    (hemb : ∃ e, make_embedding env.openai att.embed text = .error e)
    (hfresh : (oid.getD att.genId) ∉ allDocIds st) :
    ∃ st', save_interaction env att st u text meta oid =
        .ok (SaveResult.failed_embedding (oid.getD att.genId), st') ∧
      allDocIds st' = allDocIds st ∧
      (∀ ratt limit docs,
        get_recent_memory env ratt st' u limit = .ok docs →
          (oid.getD att.genId) ∉ docs.map MemDoc.id) := by
  obtain ⟨st1, hst1, hsome, hrec, hids⟩ :=
    ensure_collection_ok st u att.cf1 att.cf2 hcoll
  obtain ⟨e, he⟩ := hemb
  refine ⟨st1, ?_, hids, ?_⟩
  · unfold save_interaction
    rw [hch, hst1, he]
    cases oid <;> rfl
  · intro ratt limit docs hdocs
    have hens : ensure_collection true ratt.cf1 ratt.cf2 st1 u = .ok st1 := by
      unfold ensure_collection
      cases hl : st1.lookup (_collection_name u) with
      | some l => simp [hl]
      | none => rw [hl] at hsome; simp at hsome
    unfold get_recent_memory at hdocs
    rw [hch, hens] at hdocs
    cases hget : ratt.getOk with
    | true =>
      rw [hget] at hdocs
      simp only [if_true] at hdocs
      injection hdocs with hdocseq
      intro hmem
      rw [← hdocseq] at hmem
      simp only [List.map_map, List.mem_map, Function.comp] at hmem
      obtain ⟨r, hrmem, hid⟩ := hmem
      have hr2 : r ∈ storeRecords st1 (_collection_name u) :=
        List.mem_of_mem_take hrmem
      obtain ⟨l, hl⟩ := Option.isSome_iff_exists.mp hsome
      have hrecs : storeRecords st1 (_collection_name u) = l := by
        unfold storeRecords
        rw [hl]
        rfl
      rw [hrecs] at hr2
      have hmem2 : r.id ∈ allDocIds st1 := mem_allDocIds_of_lookup hl hr2
      rw [hids] at hmem2
      exact hfresh (hid ▸ hmem2)
    | false =>
      rw [hget] at hdocs
      simp only [Bool.false_eq_true, if_false] at hdocs
      injection hdocs with hdocseq
      rw [← hdocseq]
      simp

/-- Witness for C5: a failing embedding call on an empty store returns
the degraded status and nothing becomes retrievable. -/
theorem save_interaction_embedding_failure_witness :
    ∃ st', save_interaction { chroma := true, openai := true }
        failEmbedSave [] "u1" "hello world" [] none =
        .ok (SaveResult.failed_embedding
          ((none : Option String).getD failEmbedSave.genId), st') ∧
      allDocIds st' = allDocIds [] ∧
      (∀ ratt limit docs,
        get_recent_memory { chroma := true, openai := true } ratt st'
            "u1" limit = .ok docs →
          ((none : Option String).getD failEmbedSave.genId) ∉
            docs.map MemDoc.id) :=
  save_interaction_embedding_failure { chroma := true, openai := true }
    failEmbedSave [] "u1" "hello world" [] none rfl
    (Or.inr (Or.inl rfl)) ⟨"429 rate limited", rfl⟩ (by simp [allDocIds])

/-- **C6.** For a non-empty query, when the query embedding or the
similarity search fails, `get_relevant_memory` does not raise: it returns
a recent slice of at most `top_k` records in which the distance field is
`None` for every entry (the empty list when even the fallback read
fails). -/
theorem get_relevant_memory_fallback (env : MemEnv) (att : QueryAttempt)
    (st : Store) (u q : String) (k : Nat)
    (hch : env.chroma = true) (hq : q ≠ "")
    (hcoll : collCreatable st u att.cf1 att.cf2)
    (hfail : (∃ e, make_embedding env.openai att.embed q = .error e) ∨
      att.searchOk = false) :
    ∃ l, get_relevant_memory env att st u q k = .ok l ∧
      l.length ≤ k ∧ ∀ r ∈ l, r.distance = none := by
  unfold get_relevant_memory
  obtain ⟨st1, hst1, _, _, _⟩ :=
    ensure_collection_ok st u att.cf1 att.cf2 hcoll
  have hqb : (decide (q = "")) = false := decide_eq_false hq
  rw [hch]
  simp only [hqb, Bool.not_true, Bool.or_false, Bool.false_eq_true,
    if_false, hst1]
  rcases hfail with ⟨e, he⟩ | hsearch
  · rw [he]
    cases hget : att.getOk with
    | true =>
      refine ⟨((storeRecords st1 (_collection_name u)).take k).map
        (fun r => { id := r.id,
                    document := r.document,
                    metadata := r.metadata,
                    distance := none }), ?_, ?_, ?_⟩
      · rfl
      · simp only [List.length_map, List.length_take]
        omega
      · intro r hr
        simp only [List.mem_map] at hr
        obtain ⟨x, _, rfl⟩ := hr
        rfl
    | false =>
      refine ⟨[], ?_, by simp, by simp⟩
      rfl
  · cases hemb : make_embedding env.openai att.embed q with
    | error e =>
      cases hget : att.getOk with
      | true =>
        refine ⟨((storeRecords st1 (_collection_name u)).take k).map
          (fun r => { id := r.id,
                      document := r.document,
                      metadata := r.metadata,
                      distance := none }), ?_, ?_, ?_⟩
        · rfl
        · simp only [List.length_map, List.length_take]
          omega
        · intro r hr
          simp only [List.mem_map] at hr
          obtain ⟨x, _, rfl⟩ := hr
          rfl
      | false =>
        refine ⟨[], ?_, by simp, by simp⟩
        rfl
    | ok emb =>
      rw [hsearch]
      cases hget : att.getOk with
      | true =>
        refine ⟨((storeRecords st1 (_collection_name u)).take k).map
          (fun r => { id := r.id,
                      document := r.document,
                      metadata := r.metadata,
                      distance := none }), ?_, ?_, ?_⟩
        · rfl
        · simp only [List.length_map, List.length_take]
          omega
        · intro r hr
          simp only [List.mem_map] at hr
          obtain ⟨x, _, rfl⟩ := hr
          rfl
      | false =>
        refine ⟨[], ?_, by simp, by simp⟩
        rfl

/-- A store holding one record for user `u1`. -/
def oneRecStore : Store :=
  [("learn_tube_u1",
    [{ id := "r1", document := "doc one", metadata := [], embedding := [1] }])]

/-- A query attempt whose embedding call times out. -/
def failEmbedQuery : QueryAttempt :=
  { cf1 := false, cf2 := false, embed := .error "timeout", searchOk := true,
    rank := fun rs => rs.map (fun r => (r, 0)), getOk := true }

/-- Witness for C6: with one stored record and a failing embedding call,
the fallback returns one record of unknown distance. -/
theorem get_relevant_memory_fallback_witness :
    ∃ l, get_relevant_memory { chroma := true, openai := true }
        failEmbedQuery oneRecStore "u1" "what was my score" 3 = .ok l ∧
      l.length ≤ 3 ∧ ∀ r ∈ l, r.distance = none :=
  get_relevant_memory_fallback { chroma := true, openai := true }
    failEmbedQuery oneRecStore "u1" "what was my score" 3 rfl (by decide)
    (Or.inl rfl) (Or.inl ⟨"timeout", rfl⟩)

/-- **C7.** When the Groq client is initialized but the completion call
fails during `chat_agent`, the error does not propagate: the call returns
exactly the fixed apology string, and (with the memory layer working) it
still persists the user message and the apology as two separate records
of the user's collection, in that order. -/
theorem chat_agent_completion_failure (env : MemEnv) (aCtx : QueryAttempt)
    (aU aA : SaveAttempt) (st : Store) (u msg e : String)
    (hch : env.chroma = true)
    (hcollU : collCreatable st u aU.cf1 aU.cf2)
    (hembU : ∃ v, make_embedding env.openai aU.embed msg = .ok v)
    (haddU : aU.addOk = true)
    (hembA : ∃ v, make_embedding env.openai aA.embed apologyMessage = .ok v)
    (haddA : aA.addOk = true) :
    ∃ st2 e1 e2,
      chat_agent env aCtx true (.error e) aU aA st u msg =
        (apologyMessage, st2) ∧
      storeRecords st2 (_collection_name u) =
        storeRecords st (_collection_name u) ++
          [{ id := aU.genId, document := msg,
             metadata := [("type", Scalar.str "chat_user")],
             embedding := e1 },
           { id := aA.genId, document := apologyMessage,
             metadata := [("type", Scalar.str "chat_assistant")],
             embedding := e2 }] := by
  obtain ⟨e1, st1, hsave1, _, hrec1, hsome1⟩ :=
    save_interaction_ok env aU st u msg
      [("type", Scalar.str "chat_user")] hch hcollU hembU haddU
  obtain ⟨e2, st2, hsave2, _, hrec2, _⟩ :=
    save_interaction_ok env aA st1 u apologyMessage
      [("type", Scalar.str "chat_assistant")] hch (Or.inl hsome1) hembA haddA
  refine ⟨st2, e1, e2, ?_, ?_⟩
  · unfold chat_agent
    simp only [hsave1, hsave2]
    rfl
  · rw [hrec2, hrec1]
    simp

/-- A successful save attempt for the chat user message. -/
def chatUserSave : SaveAttempt :=
  { cf1 := false, cf2 := false, embed := .ok [1], addOk := true,
    genId := "cu-1" }

/-- A successful save attempt for the chat assistant reply. -/
def chatAsstSave : SaveAttempt :=
  { cf1 := false, cf2 := false, embed := .ok [2], addOk := true,
    genId := "ca-1" }

/-- Witness for C7: a failing completion call on an empty store returns
the apology and persists the two records. -/
theorem chat_agent_completion_failure_witness :
    ∃ st2 e1 e2,
      chat_agent { chroma := true, openai := true } trivialQuery true
          (.error "boom") chatUserSave chatAsstSave [] "u1"
          "What was my score?" =
        (apologyMessage, st2) ∧
      storeRecords st2 (_collection_name "u1") =
        storeRecords ([] : Store) (_collection_name "u1") ++
          [{ id := chatUserSave.genId, document := "What was my score?",
             metadata := [("type", Scalar.str "chat_user")],
             embedding := e1 },
           { id := chatAsstSave.genId, document := apologyMessage,
             metadata := [("type", Scalar.str "chat_assistant")],
             embedding := e2 }] :=
  chat_agent_completion_failure { chroma := true, openai := true }
    trivialQuery chatUserSave chatAsstSave [] "u1" "What was my score?"
    "boom" rfl (Or.inr (Or.inl rfl)) ⟨[1], rfl⟩ rfl ⟨[2], rfl⟩ rfl

/-- **C10.** When the Groq client failed to initialize, `chat_agent`
returns the fixed unavailability string — distinct from the apology used
for a failing completion call — and it returns before the persistence
step, so the store is unchanged: no record is saved for that turn. -/
theorem chat_agent_client_none (env : MemEnv) (aCtx : QueryAttempt)
    (completion : Except String String) (aU aA : SaveAttempt) (st : Store)
    (u msg : String) :
    chat_agent env aCtx false completion aU aA st u msg =
      (unavailableMessage, st) ∧
    unavailableMessage ≠ apologyMessage := by
  exact ⟨rfl, by decide⟩

/-- **C1, counterexample.** The claim says a profile-fetch failure aborts
`analyze_profile` with a typed error and no fallback profile: but when the
Apify call itself fails, `scrape_profile` catches the exception and
returns a placeholder profile, and the analysis proceeds to a normal
result built on that fallback profile. -/
theorem scrape_failure_counterexample :
    scrape_profile true (.error "Connection reset") (.ok []) =
      .ok (apifyErrorProfile "Connection reset") ∧
    (analyze_profile { chroma := false, openai := false } true
        (.error "Connection reset") (.ok []) failEmbedSave trivialQuery
        true (.ok "no json here") failEmbedSave (fun _ => failEmbedSave) []
        "https://linkedin.com/in/x" none "u1").map Prod.fst =
      .ok { profile := apifyErrorProfile "Connection reset",
            analysis_text := "no json here",
            match_score := none,
            recommendations := Json.arr [],
            rewritten_sections := Json.obj [] } := by
  exact ⟨rfl, rfl⟩

/-- **C1, amended.** `scrape_profile` raises exactly when the Apify token
is missing, and only then does `analyze_profile` abort at the fetch step,
propagating the typed `RuntimeError` message; when the token is present
and the remote Apify call fails, the failure is swallowed inside
`scrape_profile`, a placeholder profile carrying the error text is
substituted, and the analysis continues. -/
theorem scrape_profile_spec (token : Bool) (run : Except String Unit)
    (items : Except String (List ScrapedItem)) :
    (exceptOk (scrape_profile token run items) = token) ∧
    (token = false →
      ∀ (env : MemEnv) (a3 : SaveAttempt) (a4 : QueryAttempt) (groq : Bool)
        (completion : Except String String) (a8 : SaveAttempt)
        (a8s : Nat → SaveAttempt) (st : Store) (url : String)
        (tj : Option String) (u : String),
      analyze_profile env token run items a3 a4 groq completion a8 a8s st
          url tj u =
        .error ("Failed to scrape LinkedIn profile: " ++
          "APIFY_API_TOKEN not set. Cannot use Apify scraper.")) ∧
    (∀ e, token = true → run = .error e →
      scrape_profile token run items = .ok (apifyErrorProfile e)) := by
  refine ⟨?_, ?_, ?_⟩
  · cases token
    · rfl
    · cases run with
      | error e => rfl
      | ok x =>
        cases items with
        | error e => rfl
        | ok l => cases l <;> rfl
  · rintro rfl env a3 a4 groq completion a8 a8s st url tj u
    rfl
  · rintro e rfl rfl
    rfl

/-- Witness for C1 (amended): with the token missing the analysis aborts
with the typed scrape error. -/
theorem scrape_profile_spec_witness :
    analyze_profile { chroma := true, openai := true } false (.ok ())
        (.ok []) failEmbedSave trivialQuery true (.ok "hi") failEmbedSave
        (fun _ => failEmbedSave) [] "https://linkedin.com/in/y" none "u1" =
      .error ("Failed to scrape LinkedIn profile: " ++
        "APIFY_API_TOKEN not set. Cannot use Apify scraper.") :=
  (scrape_profile_spec false (.ok ()) (.ok [])).2.1 rfl
    { chroma := true, openai := true } failEmbedSave trivialQuery true
    (.ok "hi") failEmbedSave (fun _ => failEmbedSave) []
    "https://linkedin.com/in/y" none "u1"

/-- **C8.** In `analyze_profile` only the profile-fetch step and the
completion-service call can abort the whole operation: the run succeeds
exactly when the Apify token is present, the Groq client is initialized
and the completion call succeeds; and the returned result is identical
across any outcomes of the best-effort steps (the `analysis_request`
save, the memory-context build, and the result/rewritten saves), and
across any store and memory environment, so their failures are never
visible to the caller. -/
theorem analyze_profile_abort_policy (env env2 : MemEnv) (token : Bool)
    (run : Except String Unit) (items : Except String (List ScrapedItem))
    (a3 a3b : SaveAttempt) (a4 a4b : QueryAttempt) (groq : Bool)
    (completion : Except String String) (a8 a8b : SaveAttempt)
    (a8s a8sb : Nat → SaveAttempt) (st st2 : Store) (url : String)
    (tj : Option String) (u : String) :
    (exceptOk (analyze_profile env token run items a3 a4 groq completion
        a8 a8s st url tj u) =
      (token && groq && exceptOk completion)) ∧
    ((analyze_profile env token run items a3 a4 groq completion a8 a8s st
        url tj u).map Prod.fst =
      (analyze_profile env2 token run items a3b a4b groq completion a8b
        a8sb st2 url tj u).map Prod.fst) := by
  have hscrape : ∀ (t : Bool), t = true →
      ∃ p, scrape_profile t run items = .ok p := by
    rintro t rfl
    cases run with
    | error e => exact ⟨_, rfl⟩
    | ok x =>
      cases items with
      | error e => exact ⟨_, rfl⟩
      | ok l => cases l <;> exact ⟨_, rfl⟩
  constructor
  · cases htok : token
    · cases run with
      | error e => rfl
      | ok x => rfl
    · obtain ⟨p, hp⟩ := hscrape true rfl
      unfold analyze_profile
      rw [hp]
      cases hg : groq
      · rfl
      · cases completion with
        | error e => rfl
        | ok c => rfl
  · cases htok : token
    · cases run with
      | error e => rfl
      | ok x => rfl
    · obtain ⟨p, hp⟩ := hscrape true rfl
      unfold analyze_profile
      rw [hp]
      cases hg : groq
      · rfl
      · cases completion with
        | error e => rfl
        | ok c => rfl

end LearnTube
